import Mathlib

/-
Shallow embedding of the poly_analysis statistical reconstruction engine.

The definitions below are translated from the analyzer modules:
  * completeness analysis (gross VWAPs, spread, net shares, balance ratio,
    matched pairs, balance tiers, resolution linking, trade P&L),
  * P&L decomposition (completeness spread, directional drag, sell P&L,
    hold counterfactual and sell discipline),
  * prediction-skill testing (symmetric subset, z statistic, conclusion),
  * sizing (sweep-line concurrent capital exposure).

Money and share quantities are embedded as rationals (the Python code uses
IEEE floats; the algebraic identities at issue are exact over the rationals,
and the tolerance claims are stated as rational inequalities).
-/

namespace PolyAnalysis

/-- Outcome label of a binary prediction market (the source uses the string
labels Up and Down). -/
inductive Outcome where
  | up
  | down
deriving DecidableEq, Repr

/-- Flip of an outcome label, as in the source's mapping of Up to Down and
Down to Up when a losing position anchors resolution. -/
def Outcome.flip : Outcome → Outcome
  | .up => .down
  | .down => .up

@[simp]
theorem Outcome.up_ne_down : Outcome.up ≠ Outcome.down := fun h => Outcome.noConfusion h

@[simp]
theorem Outcome.down_ne_up : Outcome.down ≠ Outcome.up := fun h => Outcome.noConfusion h

/-- One row of the per-market summary: aggregated buy cost/shares and sell
proceeds/shares for each outcome side of one market. -/
structure PerMarketSummary where
  condition_id : ℕ
  buy_up_cost : ℚ
  buy_up_shares : ℚ
  buy_down_cost : ℚ
  buy_down_shares : ℚ
  sell_up_proceeds : ℚ
  sell_up_shares : ℚ
  sell_down_proceeds : ℚ
  sell_down_shares : ℚ
deriving DecidableEq, Repr

namespace PerMarketSummary

/-- Up-side buy VWAP with the zero-shares guard of the source: the source
computes cost/shares where shares are positive and the NaN sentinel
otherwise; none embeds NaN. -/
def vwap_up_opt (m : PerMarketSummary) : Option ℚ :=
  if 0 < m.buy_up_shares then some (m.buy_up_cost / m.buy_up_shares) else none

/-- Down-side buy VWAP with the zero-shares guard of the source; none embeds
the NaN sentinel. -/
def vwap_down_opt (m : PerMarketSummary) : Option ℚ :=
  if 0 < m.buy_down_shares then some (m.buy_down_cost / m.buy_down_shares) else none

/-- A market is both-sided when it has positive buy shares on both sides. -/
def is_both_sided (m : PerMarketSummary) : Bool :=
  decide (0 < m.buy_up_shares) && decide (0 < m.buy_down_shares)

/-- Up-side buy VWAP on the both-sided branch (where the source's guard has
already established positive shares, so the division is the whole story). -/
def vwap_up (m : PerMarketSummary) : ℚ := m.buy_up_cost / m.buy_up_shares

/-- Down-side buy VWAP on the both-sided branch. -/
def vwap_down (m : PerMarketSummary) : ℚ := m.buy_down_cost / m.buy_down_shares

/-- Combined VWAP: cost of one Up share plus one Down share. -/
def combined_vwap (m : PerMarketSummary) : ℚ := vwap_up m + vwap_down m

/-- Completeness spread: one dollar minus the combined VWAP. -/
def spread (m : PerMarketSummary) : ℚ := 1 - combined_vwap m

/-- Net Up shares after sells, floored at zero as in the source's clip. -/
def net_up_shares (m : PerMarketSummary) : ℚ :=
  max (m.buy_up_shares - m.sell_up_shares) 0

/-- Net Down shares after sells, floored at zero as in the source's clip. -/
def net_down_shares (m : PerMarketSummary) : ℚ :=
  max (m.buy_down_shares - m.sell_down_shares) 0

/-- Larger of the two net share counts. -/
def max_net (m : PerMarketSummary) : ℚ := max (net_up_shares m) (net_down_shares m)

/-- Smaller of the two net share counts. -/
def min_net (m : PerMarketSummary) : ℚ := min (net_up_shares m) (net_down_shares m)

/-- Balance of the net position: smaller net side over larger net side, and
zero by convention when the larger side is not positive. -/
def balance_ratio (m : PerMarketSummary) : ℚ :=
  if 0 < max_net m then min_net m / max_net m else 0

/-- Matched pairs: the smaller net side (each pair holds one share of each
outcome). -/
def matched_pairs (m : PerMarketSummary) : ℚ := min_net m

/-- Unmatched shares: the excess of the larger net side over the smaller. -/
def unmatched_shares (m : PerMarketSummary) : ℚ := max_net m - min_net m

/-- Side holding the excess net shares; Up on ties, as in the source's
comparison net up at least net down. -/
def excess_side (m : PerMarketSummary) : Outcome :=
  if net_down_shares m ≤ net_up_shares m then .up else .down

/-- Guaranteed profit from the matched pairs at the observed spread. -/
def guaranteed_profit (m : PerMarketSummary) : ℚ := matched_pairs m * spread m

end PerMarketSummary

/-- The four balance tiers, ordered from least to most balanced. -/
inductive BalanceTier where
  | very_imbalanced
  | imbalanced
  | moderate
  | well_balanced
deriving DecidableEq, Repr

/-- Balance tier of a balance ratio. The source cuts at the bin edges
-0.001, 0.33, 0.50, 0.80, 1.001 with the library's default interval
convention: each bin is open on the left and closed on the right, and a
value outside every bin gets the missing sentinel (none). -/
def balance_tier_of (r : ℚ) : Option BalanceTier :=
  if -1/1000 < r ∧ r ≤ 33/100 then some .very_imbalanced
  else if 33/100 < r ∧ r ≤ 1/2 then some .imbalanced
  else if 1/2 < r ∧ r ≤ 4/5 then some .moderate
  else if 4/5 < r ∧ r ≤ 1001/1000 then some .well_balanced
  else none

/-- Balance tier of a market. -/
def PerMarketSummary.balance_tier (m : PerMarketSummary) : Option BalanceTier :=
  balance_tier_of m.balance_ratio

/-- The both-sided restriction of a list of per-market summaries; spread,
balance and tier statistics are computed over this list only. -/
def bothSidedList (pms : List PerMarketSummary) : List PerMarketSummary :=
  pms.filter PerMarketSummary.is_both_sided

/-- A closed position row, as used by the resolution linker: market id,
outcome held, and the position's resolution (current) price. -/
structure Position where
  condition_id : ℕ
  outcome : Outcome
  cur_price : ℚ
deriving DecidableEq, Repr

/-- A position anchors resolution exactly when its resolution price is
exactly zero or exactly one. -/
def Position.isResolvedPrice (p : Position) : Bool :=
  decide (p.cur_price = 0 ∨ p.cur_price = 1)

/-- Winning outcome determined by one price-anchored position: price one
means the held outcome won; price zero means the other outcome won. -/
def Position.winner (p : Position) : Outcome :=
  if p.cur_price = 1 then p.outcome else p.outcome.flip

/-- Keep the first row for each market id, dropping later duplicates, as the
source's duplicate-dropping on the condition id column does; seen carries
the ids already emitted. -/
def dedupFirstAux (seen : List ℕ) : List (ℕ × Outcome) → List (ℕ × Outcome)
  | [] => []
  | x :: xs =>
      if x.1 ∈ seen then dedupFirstAux seen xs
      else x :: dedupFirstAux (x.1 :: seen) xs

/-- The resolution mapping: filter closed positions to those with resolution
price exactly zero or one, map each to its market's winning outcome, and
keep one winner per market id (first occurrence). -/
def resolutionList (ps : List Position) : List (ℕ × Outcome) :=
  dedupFirstAux []
    ((ps.filter Position.isResolvedPrice).map fun p => (p.condition_id, p.winner))

namespace PerMarketSummary

/-- Resolution payout of a resolved market: the net shares held on the
winning side (each pays one dollar). -/
def resolution_payout (m : PerMarketSummary) (w : Outcome) : ℚ :=
  if w = .up then net_up_shares m else net_down_shares m

/-- Total buy cost over both sides. -/
def total_buy (m : PerMarketSummary) : ℚ := m.buy_up_cost + m.buy_down_cost

/-- Total sell proceeds over both sides. -/
def total_sell (m : PerMarketSummary) : ℚ := m.sell_up_proceeds + m.sell_down_proceeds

/-- Realized trade P&L of a resolved market: payout plus sell proceeds minus
buy cost. -/
def trade_pnl (m : PerMarketSummary) (w : Outcome) : ℚ :=
  resolution_payout m w + total_sell m - total_buy m

/-- Decomposition component one: the completeness spread captured on matched
pairs (the guaranteed profit). -/
def completeness_spread (m : PerMarketSummary) : ℚ := guaranteed_profit m

/-- Buy VWAP of the excess side. -/
def excess_vwap (m : PerMarketSummary) : ℚ :=
  if excess_side m = .up then vwap_up m else vwap_down m

/-- Decomposition component two: directional drag on unmatched shares; the
excess side pays one dollar per share when it wins and nothing when it
loses, against a cost basis at its buy VWAP. -/
def directional_drag (m : PerMarketSummary) (w : Outcome) : ℚ :=
  if excess_side m = w then unmatched_shares m * (1 - excess_vwap m)
  else unmatched_shares m * (0 - excess_vwap m)

/-- Decomposition component three: sell P&L, marking sold shares at the buy
VWAP of their side as cost basis. -/
def sell_pnl (m : PerMarketSummary) : ℚ :=
  (m.sell_up_proceeds - m.sell_up_shares * vwap_up m)
    + (m.sell_down_proceeds - m.sell_down_shares * vwap_down m)

/-- Sum of the three decomposition components. -/
def decomp_sum (m : PerMarketSummary) (w : Outcome) : ℚ :=
  completeness_spread m + directional_drag m w + sell_pnl m

/-- Buy shares on the winning side. -/
def buy_winning_shares (m : PerMarketSummary) (w : Outcome) : ℚ :=
  if w = .up then m.buy_up_shares else m.buy_down_shares

/-- Sell shares on the winning side. -/
def sell_winning_shares (m : PerMarketSummary) (w : Outcome) : ℚ :=
  if w = .up then m.sell_up_shares else m.sell_down_shares

/-- Hold-to-resolution counterfactual P&L: the payout had nothing been sold
(buy shares on the winning side) minus total buy cost. -/
def hold_pnl (m : PerMarketSummary) (w : Outcome) : ℚ :=
  buy_winning_shares m w - total_buy m

/-- Sell discipline value: actual trade P&L minus the hold counterfactual. -/
def sell_discipline_value (m : PerMarketSummary) (w : Outcome) : ℚ :=
  trade_pnl m w - hold_pnl m w

/-- Absolute gap between the two buy VWAPs. -/
def vwap_gap (m : PerMarketSummary) : ℚ := |vwap_up m - vwap_down m|

/-- Side with the larger gross buy share count; Up on ties, as in the
source's comparison buy up shares at least buy down shares. -/
def gross_share_excess (m : PerMarketSummary) : Outcome :=
  if m.buy_down_shares ≤ m.buy_up_shares then .up else .down

/-- Side with the cheaper buy VWAP; Up on ties, as in the source's
comparison VWAP up at most VWAP down. -/
def cheaper_side (m : PerMarketSummary) : Outcome :=
  if vwap_up m ≤ vwap_down m then .up else .down

end PerMarketSummary

/-- A resolved both-sided market: its summary row joined with its realized
winning outcome. -/
structure ResolvedMarket where
  market : PerMarketSummary
  winning_outcome : Outcome
deriving DecidableEq, Repr

/-- Whether the gross share tilt picked the winning outcome. -/
def gross_share_correct (r : ResolvedMarket) : Bool :=
  decide (r.market.gross_share_excess = r.winning_outcome)

/-- Whether the cheaper side won (the analytical null predictor). -/
def null_correct (r : ResolvedMarket) : Bool :=
  decide (r.market.cheaper_side = r.winning_outcome)

/-- The symmetric subset: resolved markets whose two buy VWAPs differ by
less than five cents. -/
def symmetricSubset (rs : List ResolvedMarket) : List ResolvedMarket :=
  rs.filter fun r => decide (r.market.vwap_gap < 1/20)

/-- Fraction of a list of resolved markets satisfying a Boolean predicate
(the mean of the indicator column); meaningful for nonempty lists, which is
how the source guards every use. -/
def meanP (rs : List ResolvedMarket) (p : ResolvedMarket → Bool) : ℚ :=
  (rs.countP p : ℚ) / (rs.length : ℚ)

/-- Size of the symmetric subset. -/
def symmetric_count (rs : List ResolvedMarket) : ℕ := (symmetricSubset rs).length

/-- Gross share tilt accuracy over the symmetric subset. -/
def symmetric_gross_acc (rs : List ResolvedMarket) : ℚ :=
  meanP (symmetricSubset rs) gross_share_correct

/-- Null (cheaper-side win) rate over the symmetric subset. -/
def sym_null_acc (rs : List ResolvedMarket) : ℚ :=
  meanP (symmetricSubset rs) null_correct

/-- The symmetric-subset z statistic: observed tilt accuracy minus the
subset's own null rate over the binomial standard error, computed when the
subset is nonempty and the null rate is strictly between zero and one, and
the NaN sentinel (none) otherwise, as in the source's guard. -/
noncomputable def symmetric_z (rs : List ResolvedMarket) : Option ℝ :=
  if 0 < symmetric_count rs ∧ 0 < sym_null_acc rs ∧ sym_null_acc rs < 1 then
    some (((symmetric_gross_acc rs : ℝ) - (sym_null_acc rs : ℝ))
      / Real.sqrt ((sym_null_acc rs : ℝ) * (1 - (sym_null_acc rs : ℝ))
          / (symmetric_count rs : ℝ)))
  else none

/-- Comparison of a possibly-missing z statistic against a critical value;
the missing (NaN) case compares false, as the source's float comparison
with NaN does. -/
def zExceeds (z : Option ℝ) (c : ℝ) : Prop :=
  match z with
  | some v => c < v
  | none => False

/-- The symmetric-subset test flags prediction: at least one hundred
symmetric markets and z beyond 1.96. -/
def sym_predicts (rs : List ResolvedMarket) : Prop :=
  100 ≤ symmetric_count rs ∧ zExceeds (symmetric_z rs) (196/100)

/-- The three overall conclusion labels the tester can emit. -/
inductive Conclusion where
  | inconclusive
  | evidenceOfPrediction
  | noPrediction
deriving DecidableEq, Repr

open Classical in
/-- The overall conclusion of the prediction-skill tester. It receives the
three biased tilt accuracies alongside the corrected statistics, exactly as
all are in scope at the source's conclusion block, and branches only on the
corrected ones: inconclusive when the symmetric subset is smaller than one
hundred, evidence of prediction when the symmetric z-test fires or the
excess dollar-allocation gap exceeds 0.01, and no prediction otherwise. -/
noncomputable def conclusion (net_share_acc gross_share_acc dollar_tilt_acc : ℝ)
    (sym_count : ℕ) (sym_z : Option ℝ) (excess_gap : ℝ) : Conclusion :=
  if ¬ 100 ≤ sym_count then .inconclusive
  else if (100 ≤ sym_count ∧ zExceeds sym_z (196/100)) ∨ (1/100 : ℝ) < excess_gap then
    .evidenceOfPrediction
  else .noPrediction

/-- A market's capital interval for the exposure sweep: net capital is
committed at the first fill and released at the close. -/
structure MarketCapital where
  first_fill_ts : ℕ
  close_ts : ℕ
  net_capital : ℚ
deriving DecidableEq, Repr

/-- The signed event stream: a positive delta at each market's first fill
time and a negative delta at its close time. -/
def capitalEvents (ms : List MarketCapital) : List (ℕ × ℚ) :=
  (ms.map fun m => (m.first_fill_ts, m.net_capital))
    ++ (ms.map fun m => (m.close_ts, -m.net_capital))

/-- Insertion of one event into a timestamp-sorted event list. -/
def insertByTs (e : ℕ × ℚ) : List (ℕ × ℚ) → List (ℕ × ℚ)
  | [] => [e]
  | f :: fs => if e.1 ≤ f.1 then e :: f :: fs else f :: insertByTs e fs

/-- Chronological sort of the event stream. -/
def sortByTs (l : List (ℕ × ℚ)) : List (ℕ × ℚ) := l.foldr insertByTs []

/-- Running cumulative sums of a list of deltas, starting from acc. -/
def cumSums (acc : ℚ) : List ℚ → List ℚ
  | [] => []
  | d :: ds => (acc + d) :: cumSums (acc + d) ds

/-- Peak concurrent capital exposure: the maximum of the running cumulative
sum of the chronologically sorted event stream (none for no events). -/
def peak_exposure (ms : List MarketCapital) : Option ℚ :=
  (cumSums 0 ((sortByTs (capitalEvents ms)).map Prod.snd)).max?

/-- The synthetic market of the specification's acceptance example: buy 100
Up shares for 40 dollars and 100 Down shares for 45 dollars, no sells. -/
def mkt9 : PerMarketSummary := ⟨9, 40, 100, 45, 100, 0, 0, 0, 0⟩

/-- A both-sided market whose balance ratio is exactly 0.33: net shares 100
Up against 33 Down. -/
def mkt5 : PerMarketSummary := ⟨5, 50, 100, 16, 33, 0, 0, 0, 0⟩

/-- A both-sided market that oversells its Up side: 1 Up share bought for
0.50 and 2 Up shares sold, 1 Down share bought for 0.40. -/
def mkt1 : PerMarketSummary := ⟨1, 1/2, 1, 2/5, 1, 6/5, 2, 0, 0⟩

/-- A generic both-sided market with partial sells on both sides, used to
instantiate hypotheses of the per-market theorems. -/
def mkt2 : PerMarketSummary := ⟨2, 30, 100, 40, 80, 10, 20, 5, 10⟩

open PerMarketSummary

/-- C9: on the synthetic market with buy_up_cost=40, buy_up_shares=100,
buy_down_cost=45, buy_down_shares=100 and no sells, the completeness model
yields VWAP_up=0.40, VWAP_down=0.45, combined_vwap=0.85, spread=0.15,
balance_ratio=1, matched_pairs=100 and guaranteed_profit=15; resolved with
Up winning, trade_pnl = 100 - 85 = 15 = guaranteed_profit. -/
theorem synthetic_market_values :
    mkt9.is_both_sided = true ∧
    vwap_up mkt9 = 2/5 ∧ vwap_down mkt9 = 9/20 ∧
    combined_vwap mkt9 = 17/20 ∧ spread mkt9 = 3/20 ∧
    mkt9.balance_ratio = 1 ∧ mkt9.matched_pairs = 100 ∧
    mkt9.guaranteed_profit = 15 ∧
    mkt9.trade_pnl .up = 100 - 85 ∧
    mkt9.trade_pnl .up = mkt9.guaranteed_profit := by
  refine ⟨rfl, ?_, ?_, ?_, ?_, ?_, ?_, ?_, ?_, ?_⟩ <;>
    norm_num [mkt9, vwap_up, vwap_down, combined_vwap, spread, balance_ratio,
      matched_pairs, min_net, max_net, net_up_shares, net_down_shares,
      guaranteed_profit, trade_pnl, resolution_payout, total_buy, total_sell]

/-- C2: for a both-sided market, matched pairs plus unmatched shares equals
the larger net side, and the balance ratio is matched pairs over the larger
net side when that side is positive and zero otherwise. -/
theorem matched_unmatched_balance (m : PerMarketSummary)
    (hbu : 0 < m.buy_up_shares) (hbd : 0 < m.buy_down_shares) :
    m.matched_pairs + m.unmatched_shares = max m.net_up_shares m.net_down_shares ∧
    m.balance_ratio =
      (if 0 < max m.net_up_shares m.net_down_shares then
        m.matched_pairs / max m.net_up_shares m.net_down_shares
      else 0) := by
  constructor
  · simp only [matched_pairs, unmatched_shares, max_net]
    ring
  · simp only [balance_ratio, matched_pairs, max_net]

/-- Witness for C2 at a concrete both-sided market with sells. -/
theorem matched_unmatched_balance_witness :
    mkt2.matched_pairs + mkt2.unmatched_shares
      = max mkt2.net_up_shares mkt2.net_down_shares ∧
    mkt2.balance_ratio =
      (if 0 < max mkt2.net_up_shares mkt2.net_down_shares then
        mkt2.matched_pairs / max mkt2.net_up_shares mkt2.net_down_shares
      else 0) :=
  matched_unmatched_balance mkt2 (by norm_num [mkt2]) (by norm_num [mkt2])

/-- C5 counterexample: a market whose balance ratio is exactly 0.33 falls in
the bottom tier (very imbalanced), not the second tier as the claim's
closed-open reading asserts, because the source's bins are open on the left
and closed on the right. -/
theorem balance_tier_boundary_counterexample :
    mkt5.balance_ratio = 33/100 ∧
    mkt5.balance_tier = some .very_imbalanced ∧
    mkt5.balance_tier ≠ some .imbalanced := by
  refine ⟨?_, ?_, ?_⟩ <;>
    norm_num [mkt5, PerMarketSummary.balance_tier, balance_tier_of, balance_ratio,
      min_net, max_net, net_up_shares, net_down_shares] <;> decide

/-- C5 amended: the tiers partition every balance ratio in the unit interval
into exactly one of four bins that are open on the left and closed on the
right; the boundary values 0.33, 0.50 and 0.80 fall in the lower of their
two adjacent tiers, and 1 falls in the top tier. -/
theorem balance_tier_partition :
    (∀ r : ℚ, 0 ≤ r → r ≤ 1 → ∃ t, balance_tier_of r = some t) ∧
    balance_tier_of 0 = some .very_imbalanced ∧
    balance_tier_of (33/100) = some .very_imbalanced ∧
    balance_tier_of (1/2) = some .imbalanced ∧
    balance_tier_of (4/5) = some .moderate ∧
    balance_tier_of 1 = some .well_balanced := by
  refine ⟨?_, by norm_num [balance_tier_of], by norm_num [balance_tier_of],
    by norm_num [balance_tier_of], by norm_num [balance_tier_of],
    by norm_num [balance_tier_of]⟩
  intro r h0 h1
  unfold balance_tier_of
  split_ifs with ha hb hc hd
  · exact ⟨_, rfl⟩
  · exact ⟨_, rfl⟩
  · exact ⟨_, rfl⟩
  · exact ⟨_, rfl⟩
  · exfalso
    push_neg at ha hb hc hd
    have h2 : 33/100 < r := ha (by linarith)
    have h3 : 1/2 < r := hb h2
    have h4 : 4/5 < r := hc h3
    have h5 : 1001/1000 < r := hd h4
    linarith

/-- Witness for C5's amended partition statement at an interior ratio. -/
theorem balance_tier_partition_witness :
    (∃ t, balance_tier_of (1/4) = some t) ∧
    balance_tier_of (33/100) = some .very_imbalanced :=
  ⟨balance_tier_partition.1 (1/4) (by norm_num) (by norm_num),
    balance_tier_partition.2.2.1⟩

/-- C6: a side with zero buy shares gets the missing sentinel as VWAP (not
zero), the market is classified one-sided and is excluded from the
both-sided list over which spread statistics run; and the balance ratio is
zero (not a missing value) when the larger net side is zero. -/
theorem zero_side_handling (m : PerMarketSummary) (pms : List PerMarketSummary) :
    (m.buy_up_shares = 0 →
      m.vwap_up_opt = none ∧ m.vwap_up_opt ≠ some 0 ∧ m.is_both_sided = false) ∧
    (m.buy_down_shares = 0 →
      m.vwap_down_opt = none ∧ m.vwap_down_opt ≠ some 0 ∧ m.is_both_sided = false) ∧
    (m.buy_up_shares = 0 ∨ m.buy_down_shares = 0 → m ∉ bothSidedList pms) ∧
    (m.max_net = 0 → m.balance_ratio = 0) := by
  refine ⟨?_, ?_, ?_, ?_⟩
  · intro h
    simp [vwap_up_opt, is_both_sided, h]
  · intro h
    simp [vwap_down_opt, is_both_sided, h]
  · intro h hmem
    have hb : m.is_both_sided = true := (List.mem_filter.mp hmem).2
    rcases h with h | h <;> simp [is_both_sided, h] at hb
  · intro h
    simp [balance_ratio, h]

/-- Witness for C6 at a market with zero Down-side buy shares. -/
theorem zero_side_handling_witness :
    ((⟨6, 10, 20, 0, 0, 0, 0, 0, 0⟩ : PerMarketSummary).vwap_down_opt = none ∧
      (⟨6, 10, 20, 0, 0, 0, 0, 0, 0⟩ : PerMarketSummary).vwap_down_opt ≠ some 0 ∧
      (⟨6, 10, 20, 0, 0, 0, 0, 0, 0⟩ : PerMarketSummary).is_both_sided = false) ∧
    (⟨6, 10, 20, 0, 0, 0, 0, 0, 0⟩ : PerMarketSummary) ∉
      bothSidedList [⟨6, 10, 20, 0, 0, 0, 0, 0, 0⟩] :=
  ⟨(zero_side_handling _ []).2.1 rfl,
    (zero_side_handling _ [⟨6, 10, 20, 0, 0, 0, 0, 0, 0⟩]).2.2.1 (Or.inr rfl)⟩

/-- C10: for a resolved both-sided market that does not sell more
winning-side shares than it bought, the sell discipline value (trade P&L
minus hold P&L) equals total sell proceeds minus the winning-side shares
sold. -/
theorem sell_discipline_identity (m : PerMarketSummary) (w : Outcome)
    (hbu : 0 < m.buy_up_shares) (hbd : 0 < m.buy_down_shares)
    (h : m.sell_winning_shares w ≤ m.buy_winning_shares w) :
    m.sell_discipline_value w = m.total_sell - m.sell_winning_shares w := by
  cases w with
  | up =>
      have h' : m.sell_up_shares ≤ m.buy_up_shares := by
        simpa [sell_winning_shares, buy_winning_shares] using h
      simp only [sell_discipline_value, trade_pnl, hold_pnl, resolution_payout,
        buy_winning_shares, sell_winning_shares, net_up_shares, if_pos]
      rw [max_eq_left (by linarith)]
      ring
  | down =>
      have h' : m.sell_down_shares ≤ m.buy_down_shares := by
        simpa [sell_winning_shares, buy_winning_shares] using h
      have hne : (Outcome.down : Outcome) ≠ .up := by decide
      simp only [sell_discipline_value, trade_pnl, hold_pnl, resolution_payout,
        buy_winning_shares, sell_winning_shares, net_down_shares, if_neg hne]
      rw [max_eq_left (by linarith)]
      ring

/-- Witness for C10 at a concrete resolved market with sells, Up winning. -/
theorem sell_discipline_identity_witness :
    mkt2.sell_discipline_value .up = mkt2.total_sell - mkt2.sell_winning_shares .up :=
  sell_discipline_identity mkt2 .up (by norm_num [mkt2]) (by norm_num [mkt2])
    (by norm_num [mkt2, sell_winning_shares, buy_winning_shares])

/-- C1 counterexample: on a resolved both-sided market that oversold one
side (2 Up shares sold against 1 bought, so the net-share clip at zero is
active), the three decomposition components sum to a value that differs
from trade P&L by 0.5, far above the claimed 1e-6 tolerance. -/
theorem decomposition_identity_counterexample :
    mkt1.is_both_sided = true ∧
    1/1000000 < |mkt1.decomp_sum .up - mkt1.trade_pnl .up| := by
  have e1 : mkt1.buy_up_cost = 1/2 := rfl
  have e2 : mkt1.buy_up_shares = 1 := rfl
  have e3 : mkt1.buy_down_cost = 2/5 := rfl
  have e4 : mkt1.buy_down_shares = 1 := rfl
  have e5 : mkt1.sell_up_proceeds = 6/5 := rfl
  have e6 : mkt1.sell_up_shares = 2 := rfl
  have e7 : mkt1.sell_down_proceeds = 0 := rfl
  have e8 : mkt1.sell_down_shares = 0 := rfl
  have h1 : mkt1.decomp_sum .up = -(1/5) := by
    norm_num [decomp_sum, completeness_spread, guaranteed_profit,
      matched_pairs, unmatched_shares, min_net, max_net, net_up_shares,
      net_down_shares, spread, combined_vwap, vwap_up, vwap_down,
      directional_drag, excess_side, excess_vwap, sell_pnl, max_def, min_def,
      e1, e2, e3, e4, e5, e6, e7, e8]
  have h2 : mkt1.trade_pnl .up = 3/10 := by
    norm_num [trade_pnl, resolution_payout, net_up_shares, total_buy,
      total_sell, max_def, e1, e2, e3, e4, e5, e6, e7, e8]
  refine ⟨by norm_num [mkt1, is_both_sided], ?_⟩
  rw [h1, h2]
  have h3 : (-(1/5) - 3/10 : ℚ) = -(1/2) := by norm_num
  rw [h3, abs_neg, abs_of_nonneg (by norm_num : (0:ℚ) ≤ 1/2)]
  norm_num

/-- C1 amended: for every resolved both-sided market whose sells do not
exceed its buys on either side (so the net-share floor at zero is
inactive), completeness spread plus directional drag plus sell P&L equals
trade P&L exactly. -/
theorem decomposition_identity_amended (m : PerMarketSummary) (w : Outcome)
    (hbu : 0 < m.buy_up_shares) (hbd : 0 < m.buy_down_shares)
    (hsu : m.sell_up_shares ≤ m.buy_up_shares)
    (hsd : m.sell_down_shares ≤ m.buy_down_shares) :
    m.completeness_spread + m.directional_drag w + m.sell_pnl = m.trade_pnl w := by
  have hnu : m.net_up_shares = m.buy_up_shares - m.sell_up_shares :=
    max_eq_left (by linarith)
  have hnd : m.net_down_shares = m.buy_down_shares - m.sell_down_shares :=
    max_eq_left (by linarith)
  have hbu' : m.buy_up_shares ≠ 0 := ne_of_gt hbu
  have hbd' : m.buy_down_shares ≠ 0 := ne_of_gt hbd
  by_cases hc : m.net_down_shares ≤ m.net_up_shares
  · have hex : m.excess_side = Outcome.up := if_pos hc
    have hmin : m.min_net = m.net_down_shares := min_eq_right hc
    have hmax : m.max_net = m.net_up_shares := max_eq_left hc
    cases w <;>
      (simp [completeness_spread, guaranteed_profit, matched_pairs, spread,
        combined_vwap, directional_drag, excess_vwap, hex, unmatched_shares,
        hmin, hmax, sell_pnl, trade_pnl, resolution_payout, total_buy,
        total_sell, vwap_up, vwap_down, hnu, hnd]
       try field_simp
       try ring)
  · have hex : m.excess_side = Outcome.down := if_neg hc
    have hc' : m.net_up_shares ≤ m.net_down_shares := le_of_not_le hc
    have hmin : m.min_net = m.net_up_shares := min_eq_left hc'
    have hmax : m.max_net = m.net_down_shares := max_eq_right hc'
    cases w <;>
      (simp [completeness_spread, guaranteed_profit, matched_pairs, spread,
        combined_vwap, directional_drag, excess_vwap, hex, unmatched_shares,
        hmin, hmax, sell_pnl, trade_pnl, resolution_payout, total_buy,
        total_sell, vwap_up, vwap_down, hnu, hnd]
       try field_simp
       try ring)

/-- Witness for C1's amended identity at a concrete resolved market with
partial sells on both sides, Down winning. -/
theorem decomposition_identity_witness :
    mkt2.completeness_spread + mkt2.directional_drag .down + mkt2.sell_pnl
      = mkt2.trade_pnl .down :=
  decomposition_identity_amended mkt2 .down (by norm_num [mkt2])
    (by norm_num [mkt2]) (by norm_num [mkt2]) (by norm_num [mkt2])

/-- C3: over any symmetric subset that is nonempty and whose null rate lies
strictly between zero and one, if the observed gross tilt accuracy exactly
equals the subset's null rate then the z statistic is zero, and the
symmetric test is not flagged significant (that needs z beyond 1.96). -/
theorem symmetric_z_null_zero (rs : List ResolvedMarket)
    (hn : 0 < symmetric_count rs)
    (h0 : 0 < sym_null_acc rs) (h1 : sym_null_acc rs < 1)
    (heq : symmetric_gross_acc rs = sym_null_acc rs) :
    symmetric_z rs = some 0 ∧ ¬ sym_predicts rs := by
  have hz : symmetric_z rs = some 0 := by
    unfold symmetric_z
    rw [if_pos ⟨hn, h0, h1⟩, heq]
    simp
  refine ⟨hz, ?_⟩
  rintro ⟨-, hzx⟩
  rw [hz] at hzx
  simp only [zExceeds] at hzx
  norm_num at hzx

/-- A symmetric market for the C3 witness: VWAPs 0.50 and 0.48, two cents
apart. -/
def mkt3 : PerMarketSummary := ⟨3, 50, 100, 48, 100, 0, 0, 0, 0⟩

/-- Two resolutions of the symmetric market, one per outcome, giving tilt
accuracy and null rate both one half. -/
def rs3 : List ResolvedMarket := [⟨mkt3, .up⟩, ⟨mkt3, .down⟩]

theorem mkt3_gap : vwap_gap mkt3 < 1/20 := by
  have h : vwap_up mkt3 - vwap_down mkt3 = 1/50 := by
    norm_num [vwap_up, vwap_down, mkt3]
  rw [vwap_gap, h, abs_of_nonneg (by norm_num : (0:ℚ) ≤ 1/50)]
  norm_num

theorem rs3_subset : symmetricSubset rs3 = rs3 := by
  simp only [symmetricSubset, rs3, List.filter_cons, List.filter_nil,
    decide_eq_true mkt3_gap]
  simp

theorem rs3_null : sym_null_acc rs3 = 1/2 := by
  have hch : cheaper_side mkt3 = Outcome.down := by
    rw [cheaper_side, if_neg]
    norm_num [vwap_up, vwap_down, mkt3]
  rw [sym_null_acc, rs3_subset]
  simp [meanP, rs3, List.countP_cons, null_correct, hch]

theorem rs3_gross : symmetric_gross_acc rs3 = 1/2 := by
  have hgs : gross_share_excess mkt3 = Outcome.up := by
    rw [gross_share_excess, if_pos]
    norm_num [mkt3]
  rw [symmetric_gross_acc, rs3_subset]
  simp [meanP, rs3, List.countP_cons, gross_share_correct, hgs]

/-- Witness for C3 on the concrete two-element symmetric subset. -/
theorem symmetric_z_null_zero_witness :
    symmetric_z rs3 = some 0 ∧ ¬ sym_predicts rs3 :=
  symmetric_z_null_zero rs3
    (by rw [symmetric_count, rs3_subset]; norm_num [rs3])
    (by rw [rs3_null]; norm_num)
    (by rw [rs3_null]; norm_num)
    (by rw [rs3_gross, rs3_null])

open Classical in
/-- C4: the overall conclusion is inconclusive whenever the symmetric subset
has fewer than one hundred markets; it never depends on the biased tilt
accuracies; and otherwise it reports evidence of prediction exactly when
the corrected symmetric z-test fires or the excess dollar-allocation gap
exceeds 0.01. -/
theorem conclusion_corrected_tests_only
    (b1 b2 b3 c1 c2 c3 : ℝ) (n : ℕ) (z : Option ℝ) (g : ℝ) :
    (n < 100 → conclusion b1 b2 b3 n z g = .inconclusive) ∧
    conclusion b1 b2 b3 n z g = conclusion c1 c2 c3 n z g ∧
    (100 ≤ n → conclusion b1 b2 b3 n z g =
      (if zExceeds z (196/100) ∨ (1/100 : ℝ) < g then Conclusion.evidenceOfPrediction
       else Conclusion.noPrediction)) := by
  refine ⟨?_, rfl, ?_⟩
  · intro h
    rw [conclusion, if_pos (by omega)]
  · intro h
    rw [conclusion, if_neg (by omega)]
    have hiff : ((100 ≤ n ∧ zExceeds z (196/100)) ∨ (1/100 : ℝ) < g) ↔
        (zExceeds z (196/100) ∨ (1/100 : ℝ) < g) := by
      constructor
      · rintro (⟨-, hz⟩ | hg)
        · exact Or.inl hz
        · exact Or.inr hg
      · rintro (hz | hg)
        · exact Or.inl ⟨h, hz⟩
        · exact Or.inr hg
    exact if_congr hiff rfl rfl

/-- Witness for C4: concrete instances of the inconclusive branch, the
invariance in the biased measures, and the large-subset branch. -/
theorem conclusion_corrected_tests_only_witness :
    conclusion (9/10) (8/10) (7/10) 50 none 0 = Conclusion.inconclusive ∧
    conclusion (1/10) (2/10) (3/10) 150 none (2/100)
      = conclusion (9/10) (9/10) (9/10) 150 none (2/100) :=
  ⟨(conclusion_corrected_tests_only (9/10) (8/10) (7/10) (9/10) (8/10) (7/10)
      50 none 0).1 (by omega),
    (conclusion_corrected_tests_only (1/10) (2/10) (3/10) (9/10) (9/10) (9/10)
      150 none (2/100)).2.1⟩

/-- C8: the sweep-line peak exposure of two non-overlapping markets of
capital 100 and 200 is 200 (not the 300 a naive sum would give), and of two
fully overlapping markets of capital 100 and 200 is 300, for any strictly
increasing timestamps. -/
theorem peak_exposure_sweep (t1 t2 t3 t4 : ℕ)
    (h12 : t1 < t2) (h23 : t2 < t3) (h34 : t3 < t4) :
    peak_exposure [⟨t1, t2, 100⟩, ⟨t3, t4, 200⟩] = some 200 ∧
    peak_exposure [⟨t1, t4, 100⟩, ⟨t2, t3, 200⟩] = some 300 := by
  have a1 : t2 ≤ t4 := by omega
  have a2 : ¬ t3 ≤ t2 := by omega
  have a3 : t3 ≤ t4 := by omega
  have a4 : t1 ≤ t2 := by omega
  have a5 : ¬ t4 ≤ t3 := by omega
  have a6 : t2 ≤ t3 := by omega
  constructor <;>
    (simp only [peak_exposure, capitalEvents, sortByTs, List.map_cons,
      List.map_nil, List.cons_append, List.nil_append, List.foldr_cons,
      List.foldr_nil]
     norm_num [insertByTs, a1, a2, a3, a4, a5, a6, cumSums, List.max?,
       List.foldl_cons, List.foldl_nil, max_def])

/-- Witness for C8 at concrete timestamps 0 < 1 < 2 < 3. -/
theorem peak_exposure_sweep_witness :
    peak_exposure [⟨0, 1, 100⟩, ⟨2, 3, 200⟩] = some 200 ∧
    peak_exposure [⟨0, 3, 100⟩, ⟨1, 2, 200⟩] = some 300 :=
  peak_exposure_sweep 0 1 2 3 (by omega) (by omega) (by omega)

theorem dedupFirstAux_mem (l : List (ℕ × Outcome)) (seen : List ℕ)
    (cid : ℕ) (w : Outcome) :
    (cid, w) ∈ dedupFirstAux seen l ↔
      cid ∉ seen ∧ l.find? (fun y => y.1 == cid) = some (cid, w) := by
  induction l generalizing seen with
  | nil => simp [dedupFirstAux]
  | cons x xs ih =>
      rcases x with ⟨k, v⟩
      by_cases hkc : k = cid
      · subst hkc
        by_cases hk : k ∈ seen
        · rw [dedupFirstAux, if_pos hk, ih]
          constructor
          · rintro ⟨hns, -⟩
            exact absurd hk hns
          · rintro ⟨hns, -⟩
            exact absurd hk hns
        · rw [dedupFirstAux, if_neg hk,
            List.find?_cons_of_pos _ (by simp)]
          simp [ih, hk, eq_comm]
      · have hfind : ∀ ys : List (ℕ × Outcome),
            List.find? (fun y => y.1 == cid) ((k, v) :: ys)
              = List.find? (fun y => y.1 == cid) ys :=
          fun ys => List.find?_cons_of_neg _ (by simp [hkc])
        by_cases hk : k ∈ seen
        · rw [dedupFirstAux, if_pos hk, ih, hfind]
        · rw [dedupFirstAux, if_neg hk]
          simp [ih, hfind, show cid ≠ k from fun h => hkc h.symm]

/-- C7: membership in the resolution mapping is characterized by the first
price-anchored position for that market id: a pair (cid, w) is in the
mapping iff the first closed position with resolution price exactly 0 or 1
and that market id exists and maps to winner w; hence there is at most one
winner per market id, a market none of whose closed positions has price
exactly 0 or 1 is absent from the mapping, and a price-1 position names its
own outcome as winner while a price-0 position names the opposite one. -/
theorem resolution_linker_spec (ps : List Position) (cid : ℕ) (w : Outcome) :
    ((cid, w) ∈ resolutionList ps ↔
      ∃ p : Position,
        (ps.filter Position.isResolvedPrice).find? (fun q => q.condition_id == cid)
            = some p ∧
        p.condition_id = cid ∧ w = p.winner) ∧
    (∀ w', (cid, w) ∈ resolutionList ps → (cid, w') ∈ resolutionList ps → w = w') ∧
    ((∀ p ∈ ps, p.condition_id = cid → ¬(p.cur_price = 0 ∨ p.cur_price = 1)) →
      (cid, w) ∉ resolutionList ps) ∧
    (∀ p : Position, (p.cur_price = 1 → p.winner = p.outcome) ∧
      (p.cur_price = 0 → p.winner = p.outcome.flip)) := by
  have hchar : ∀ v : Outcome, (cid, v) ∈ resolutionList ps ↔
      ∃ p : Position,
        (ps.filter Position.isResolvedPrice).find? (fun q => q.condition_id == cid)
            = some p ∧
        p.condition_id = cid ∧ v = p.winner := by
    intro v
    rw [resolutionList, dedupFirstAux_mem]
    simp only [List.not_mem_nil, not_false_iff, true_and]
    rw [List.find?_map]
    simp only [Function.comp_def]
    constructor
    · intro h
      rcases Option.map_eq_some'.mp h with ⟨p, hp, hpe⟩
      rcases Prod.mk.injEq .. ▸ hpe with ⟨h1, h2⟩
      exact ⟨p, hp, h1, h2.symm⟩
    · rintro ⟨p, hp, h1, h2⟩
      rw [hp]
      simp [h1, h2]
  refine ⟨hchar w, ?_, ?_, ?_⟩
  · intro w' hw hw'
    rcases (hchar w).mp hw with ⟨p, hp, -, hwp⟩
    rcases (hchar w').mp hw' with ⟨p', hp', -, hwp'⟩
    rw [hp] at hp'
    cases Option.some.injEq .. ▸ hp'
    · exact hwp.trans hwp'.symm
  · intro hnone hw
    rcases (hchar w).mp hw with ⟨p, hp, hpc, -⟩
    have hmem := List.mem_of_find?_eq_some hp
    rcases List.mem_filter.mp hmem with ⟨hmem', hres⟩
    exact hnone p hmem' hpc (by simpa [Position.isResolvedPrice] using hres)
  · intro p
    constructor
    · intro h
      rw [Position.winner, if_pos h]
    · intro h
      rw [Position.winner, if_neg (by rw [h]; norm_num)]

/-- Closed positions for the C7 witness: market 1 resolved at price one,
market 2 closed at price one half (no clean resolution anchor). -/
def ps7 : List Position := [⟨1, Outcome.up, 1⟩, ⟨2, Outcome.down, 1/2⟩]

/-- Witness for C7: market 2 is absent from the resolution mapping, and a
price-zero position names the flipped outcome as winner. -/
theorem resolution_linker_spec_witness :
    (2, Outcome.up) ∉ resolutionList ps7 ∧
    (⟨3, Outcome.up, 0⟩ : Position).winner = Outcome.up.flip :=
  ⟨(resolution_linker_spec ps7 2 Outcome.up).2.2.1 (by
      intro p hp hcid
      simp only [ps7, List.mem_cons, List.not_mem_nil, or_false] at hp
      rcases hp with rfl | rfl
      · norm_num at hcid
      · rintro (h | h) <;> norm_num at h),
    ((resolution_linker_spec ps7 2 Outcome.up).2.2.2 ⟨3, Outcome.up, 0⟩).2 rfl⟩

end PolyAnalysis
